import Mathlib

/-!
Verification of the distributed lease-lock subsystem of the ceph-lcm
(Decapod) repository.

The lock module itself (`decapod_common/models/lock.py`) is not among the
provided sources; only its test suite (`src/tests/common/models/test_lock.py`)
is.  The definitions below are therefore a shallow embedding modelled from the
repository specification (spec.md §§3-7), with the repository's own tests as
the authority wherever they pin concrete behaviour.  Times and owner tokens
are natural numbers, the store is a map from lock names to optional documents,
and the injected clock / sleep pair of the implementation is represented by an
explicit environment that yields the clock reading of every poll iteration and
the store mutation performed by the outside world during every sleep.
-/

namespace CephLcm

/-- A lock name, the `_id` key of the persisted document. -/
abbrev Name := String

/-- An opaque owner token, minted once per lock instance. -/
abbrev Token := Nat

/-- Modelled from the spec: the persisted layout of a lock record,
`{ _id: <name>, locker: <owner_token or null>, expired_at: <unix ts or 0> }`
(spec.md §6).  The `_id` is the key into the store, so it is not a field. -/
structure LockDoc where
  locker : Option Token
  expired_at : Nat
deriving Repr, DecidableEq

/-- Modelled from the spec: the shared document store, one optional record per
lock name ("the store enforces one record per name", spec.md §3). -/
def Store := Name → Option LockDoc

/-- `find_one` of the test suite: look up the document stored under a name. -/
def Store.find_one (s : Store) (n : Name) : Option LockDoc := s n

/-- Write (upsert) the document stored under a name. -/
def Store.upsert (s : Store) (n : Name) (d : LockDoc) : Store :=
  fun m => if m = n then some d else s m

/-- Modelled from the spec: a record is free when it is absent, its `locker`
is null, or its `expired_at` has passed ("a record with `owner = null` or
`expiry <= now` is free", spec.md §3). -/
def isFree (d : Option LockDoc) (now : Nat) : Bool :=
  match d with
  | none => true
  | some doc => doc.locker.isNone || doc.expired_at ≤ now

namespace LockStore

/-- Modelled from the spec: `try_claim(name, owner, expiry) -> bool`,
the atomic compare-and-set that succeeds only if the current record is free,
setting `locker`/`expired_at`, creating the document if absent (spec.md §4.1
and the lifecycle note of §3).  Returns the success flag and the new store. -/
def try_claim (s : Store) (n : Name) (owner : Token) (expiry now : Nat) :
    Bool × Store :=
  if isFree (s.find_one n) now then
    (true, s.upsert n ⟨some owner, expiry⟩)
  else
    (false, s)

/-- Modelled from the spec: `try_release(name, owner) -> bool`, atomically
clearing the record (locker null, expired_at 0) only if `owner` matches
(spec.md §4.1, §8). -/
def try_release (s : Store) (n : Name) (owner : Token) : Bool × Store :=
  match s.find_one n with
  | some doc =>
      if doc.locker = some owner then (true, s.upsert n ⟨none, 0⟩)
      else (false, s)
  | none => (false, s)

/-- Modelled from the spec: `try_prolong(name, owner, new_expiry) -> bool`,
atomically updating `expired_at` only if `owner` matches (spec.md §4.1). -/
def try_prolong (s : Store) (n : Name) (owner : Token) (newExpiry : Nat) :
    Bool × Store :=
  match s.find_one n with
  | some doc =>
      if doc.locker = some owner then (true, s.upsert n ⟨some owner, newExpiry⟩)
      else (false, s)
  | none => (false, s)

/-- Modelled from the spec: `force_claim(name, owner, expiry)`, the
unconditional claim that bypasses the owner check (spec.md §4.1). -/
def force_claim (s : Store) (n : Name) (owner : Token) (expiry : Nat) : Store :=
  s.upsert n ⟨some owner, expiry⟩

/-- Modelled from the spec: `force_release(name)`, unconditionally clearing an
existing record to the free state; on an already-free (or absent) record it is
an idempotent no-op (spec.md §4.1, §4.2). -/
def force_release (s : Store) (n : Name) : Store :=
  match s.find_one n with
  | some _ => s.upsert n ⟨none, 0⟩
  | none => s

/-- Modelled from the spec: `force_prolong(name, owner, new_expiry)`, the
unconditional prolong that bypasses the owner check (spec.md §4.1).  The
repository's own test `test_force_prolong_lock` asserts that after a forced
prolong by a non-owner the record's `locker` is still the original holder's
token, so the operation updates only `expired_at` of an existing record and
leaves `locker` untouched; the spec's phrase "reassigning ownership to this
instance's token" (§4.2) contradicts that test and is not followed here.
On an absent record it is a no-op, as a plain conditional update would be. -/
def force_prolong (s : Store) (n : Name) (owner : Token) (newExpiry : Nat) :
    Store :=
  match s.find_one n with
  | some doc => s.upsert n ⟨doc.locker, newExpiry⟩
  | none => s

end LockStore

/-- Modelled from the spec: the in-memory state of a `BaseMongoLock` instance,
`(name, fresh owner token, acquired flag)`, initially Unacquired
(spec.md §3, §4.2, §6). -/
structure BaseMongoLock where
  lockname : Name
  lock_id : Token
  acquired : Bool
deriving Repr, DecidableEq

/-- Modelled from the spec: the default lease duration
`DEFAULT_PROLONG_TIMEOUT` (the example scenario of spec.md §8 uses 30s). -/
def DEFAULT_PROLONG_TIMEOUT : Nat := 30

/-- Modelled from the spec: the error taxonomy of spec.md §7, named after the
exception classes the test suite imports. -/
inductive LockError where
  | MongoLockCannotAcquire
  | MongoLockCannotRelease
  | MongoLockCannotProlong
deriving Repr, DecidableEq

/-- Modelled from the spec: construct a fresh, Unacquired lock instance with
the given owner token (spec.md §6). -/
def BaseMongoLock.new (n : Name) (tok : Token) : BaseMongoLock :=
  ⟨n, tok, false⟩

/-- Modelled from the spec: `release(force)` (spec.md §4.2).  Non-forced:
`try_release` with this instance's token, `CannotRelease` on mismatch.
Forced: `force_release`, always succeeds.  On success the instance
transitions to Unacquired. -/
def BaseMongoLock.release (lk : BaseMongoLock) (s : Store) (force : Bool) :
    Except LockError (BaseMongoLock × Store) :=
  if force then
    Except.ok ({ lk with acquired := false }, LockStore.force_release s lk.lockname)
  else
    match LockStore.try_release s lk.lockname lk.lock_id with
    | (true, s2) => Except.ok ({ lk with acquired := false }, s2)
    | (false, _) => Except.error LockError.MongoLockCannotRelease

/-- Modelled from the spec: `prolong(force)` with new expiry
`now + DEFAULT_PROLONG_TIMEOUT` (spec.md §4.2).  Non-forced: `try_prolong`
with this instance's token, `CannotProlong` on mismatch.  Forced:
`force_prolong`, always succeeds. -/
def BaseMongoLock.prolong (lk : BaseMongoLock) (s : Store) (now : Nat)
    (force : Bool) : Except LockError (BaseMongoLock × Store) :=
  let newExpiry := now + DEFAULT_PROLONG_TIMEOUT
  if force then
    Except.ok (lk, LockStore.force_prolong s lk.lockname lk.lock_id newExpiry)
  else
    match LockStore.try_prolong s lk.lockname lk.lock_id newExpiry with
    | (true, s2) => Except.ok (lk, s2)
    | (false, _) => Except.error LockError.MongoLockCannotProlong

/-- Modelled from the spec: the injected Clock/Sleep environment of
spec.md §2 and §9.  `clock i` is the reading of the injected clock at the
i-th poll iteration of a blocking `acquire`; `action i` is the store mutation
performed by the rest of the world during the i-th sleep (other processes may
release, claim or steal the lock between two polls — the tests drive exactly
this through side effects installed on the mocked sleep). -/
structure AcqEnv where
  clock : Nat → Nat
  action : Nat → Store → Store

/-- Modelled from the spec: one claim attempt of `acquire` (spec.md §4.2).
Forced attempts go through `force_claim` and always succeed; plain attempts
go through `try_claim` and return `none` when the record is not free.  The
fresh expiry is `now + DEFAULT_PROLONG_TIMEOUT`. -/
def BaseMongoLock.acquireAttempt (lk : BaseMongoLock) (s : Store) (now : Nat)
    (force : Bool) : Option (BaseMongoLock × Store) :=
  let expiry := now + DEFAULT_PROLONG_TIMEOUT
  if force then
    some ({ lk with acquired := true },
          LockStore.force_claim s lk.lockname lk.lock_id expiry)
  else
    match LockStore.try_claim s lk.lockname lk.lock_id expiry now with
    | (true, s2) => some ({ lk with acquired := true }, s2)
    | (false, _) => none

/-- Modelled from the spec: the retry loop of a blocking `acquire`
(spec.md §4.2).  At iteration `i` the clock is read, one `try_claim` is
attempted against the current store, and on failure the call either fails
immediately (`block = false`), aborts with `CannotAcquire` once the elapsed
time measured by the injected clock exceeds the timeout, or sleeps (during
which the environment may mutate the store) and retries.  `fuel` bounds the
number of sleeps only so that the definition is total; `none` means the loop
was still polling when the fuel ran out (a real blocking call would simply
still be waiting). -/
def BaseMongoLock.acquireLoop (e : AcqEnv) (lk : BaseMongoLock) (block : Bool)
    (timeout : Option Nat) (start : Nat) :
    Nat → Nat → Store → Option (Except LockError (BaseMongoLock × Store))
  | fuel, i, s =>
    let now := e.clock i
    match lk.acquireAttempt s now false with
    | some r => some (Except.ok r)
    | none =>
        if block = false then
          some (Except.error LockError.MongoLockCannotAcquire)
        else
          let timedOut :=
            match timeout with
            | some t => decide (t < now - start)
            | none => false
          if timedOut then
            some (Except.error LockError.MongoLockCannotAcquire)
          else
            match fuel with
            | 0 => none
            | Nat.succ f => acquireLoop e lk block timeout start f (i + 1) (e.action i s)

/-- Modelled from the spec: `acquire(block, timeout, force)` (spec.md §4.2).
A forced acquire calls `force_claim` and always transitions to Acquired;
otherwise the retry loop runs, with `start` the first reading of the injected
clock. -/
def BaseMongoLock.acquire (e : AcqEnv) (lk : BaseMongoLock) (block : Bool)
    (timeout : Option Nat) (force : Bool) (fuel : Nat) (s : Store) :
    Option (Except LockError (BaseMongoLock × Store)) :=
  if force then
    some (Except.ok ({ lk with acquired := true },
      LockStore.force_claim s lk.lockname lk.lock_id
        (e.clock 0 + DEFAULT_PROLONG_TIMEOUT)))
  else
    lk.acquireLoop e block timeout (e.clock 0) fuel 0 s

/-- Modelled from the spec: the in-memory state of an `AutoProlongMongoLock`
instance — a wrapped `BaseMongoLock` plus the background renewal task, which
is represented by its liveness flag (`prolonger_thread.is_alive()` in the
test suite) (spec.md §4.3). -/
structure AutoProlongMongoLock where
  base : BaseMongoLock
  prolonger_alive : Bool
deriving Repr, DecidableEq

/-- Modelled from the spec: `acquire` of the auto-renewing lock — delegate to
the wrapped acquire and, on success, start the background renewal task
(spec.md §4.3).  Only the non-blocking first-attempt path is modelled, which
is the path the auto-prolong test exercises. -/
def AutoProlongMongoLock.acquire (lk : AutoProlongMongoLock) (s : Store)
    (now : Nat) : Option (AutoProlongMongoLock × Store) :=
  match lk.base.acquireAttempt s now false with
  | some (b2, s2) => some ({ base := b2, prolonger_alive := true }, s2)
  | none => none

/-- Modelled from the spec: one tick of the background renewal task
(spec.md §4.3): while the task is alive it calls the wrapped
`prolong(force=true)` with the clock reading of the tick; once stopped it
performs no store writes at all. -/
def AutoProlongMongoLock.renewStep (lk : AutoProlongMongoLock) (s : Store)
    (now : Nat) : Store :=
  if lk.prolonger_alive then
    match lk.base.prolong s now true with
    | Except.ok (_, s2) => s2
    | Except.error _ => s
  else
    s

/-- Modelled from the spec: `release` of the auto-renewing lock — signal the
renewal task to stop, wait for it to fully terminate, then delegate to the
wrapped `release` (spec.md §4.3).  After the call the task is no longer
alive, so no further renewal write can occur. -/
def AutoProlongMongoLock.release (lk : AutoProlongMongoLock) (s : Store)
    (force : Bool) : Except LockError (AutoProlongMongoLock × Store) :=
  match lk.base.release s force with
  | Except.ok (b2, s2) => Except.ok ({ base := b2, prolonger_alive := false }, s2)
  | Except.error err => Except.error err

/-- Modelled from the spec: the scoped acquisition helper `with_base_lock`
(spec.md §4.4): acquire a fresh lock on entry, run the protected section,
and release on every exit path — normal or error — without suppressing the
section's own error.  The protected work is an arbitrary fallible function on
a payload of its own; it does not touch the lock store.  The result pairs the
section's outcome with the final store, and propagates `CannotAcquire` when
the entry acquire fails. -/
def with_base_lock {W E : Type} (e : AcqEnv) (n : Name) (tok : Token)
    (fuel : Nat) (s : Store) (body : W → Except E W) (w : W) :
    Option (Except LockError (Except E W × Store)) :=
  match BaseMongoLock.acquire e (BaseMongoLock.new n tok) true none false fuel s with
  | some (Except.ok (lk, s2)) =>
      let r := body w
      match lk.release s2 false with
      | Except.ok (_, s3) => some (Except.ok (r, s3))
      | Except.error err => some (Except.error err)
  | some (Except.error err) => some (Except.error err)
  | none => none

/-- The empty store, used by concrete witnesses. -/
def emptyStore : Store := fun _ => none

/-- A store holding exactly one document, used by concrete witnesses. -/
def singleStore (n : Name) (d : LockDoc) : Store :=
  emptyStore.upsert n d

/-- A concrete environment for the release-mid-wait scenario: the clock
starts at 110 and advances one unit per sleep, and during the first sleep the
holder (token 1) releases the lock named "lk" — the analogue of the test's
sleep side effect that calls `lock1.release()`. -/
def releasingEnv : AcqEnv :=
  { clock := fun i => 110 + i,
    action := fun i s => if i = 0 then (LockStore.try_release s "lk" 1).2 else s }

/-- An interference-free environment whose injected clock advances by one
unit per sleep, starting at `c0` — the shape the tests install on the mocked
clock (`freeze_time.side_effect = range(...)`). -/
def steadyClockEnv (c0 : Nat) : AcqEnv :=
  { clock := fun i => c0 + i, action := fun _ s => s }

/-! ### Basic store lemmas -/

@[simp] theorem Store.find_one_upsert_same (s : Store) (n : Name) (d : LockDoc) :
    (s.upsert n d).find_one n = some d := by
  simp [Store.find_one, Store.upsert]

@[simp] theorem Store.find_one_upsert_other (s : Store) (n m : Name) (d : LockDoc)
    (h : m ≠ n) : (s.upsert n d).find_one m = s.find_one m := by
  simp [Store.find_one, Store.upsert, h]

/-- A blocking acquire whose elapsed time has already exceeded the timeout
aborts at the very next poll with `CannotAcquire`, whatever fuel remains:
the record is still held (`locker` set, not expired), so the attempt fails,
and the deadline comparison `timeout < now - start` fires. -/
theorem acquireLoop_timedOut_aborts (e : AcqEnv) (lk : BaseMongoLock) (s : Store)
    (doc : LockDoc) (a c0 T j : Nat)
    (hclock : ∀ i, e.clock i = c0 + i)
    (hdoc : s.find_one lk.lockname = some doc)
    (hlocker : doc.locker = some a)
    (hfail : ¬ doc.expired_at ≤ c0 + j)
    (hTj : T < j) :
    ∀ fuel, lk.acquireLoop e true (some T) c0 fuel j s
      = some (Except.error LockError.MongoLockCannotAcquire) := by
  intro fuel
  rw [BaseMongoLock.acquireLoop.eq_def]
  have h1 : ¬ doc.expired_at ≤ e.clock j := by rw [hclock]; exact hfail
  have h2 : T < e.clock j - c0 := by rw [hclock]; omega
  simp [BaseMongoLock.acquireAttempt, LockStore.try_claim, isFree, hdoc, hlocker, h1, h2]

/-- In an interference-free environment whose clock advances one unit per
sleep, a blocking acquire with timeout `T` against a record that stays held
throughout the window polls at every iteration `j ≤ T + 1` and aborts with
`CannotAcquire` exactly when the elapsed time first exceeds `T`, for every
fuel covering the remaining `T + 1 - j` sleeps — so the total simulated wait
is `T + 1` clock units no matter how much fuel (how many potential
iterations) is available. -/
theorem acquireLoop_held_times_out (e : AcqEnv) (lk : BaseMongoLock) (s : Store)
    (doc : LockDoc) (a c0 T : Nat)
    (hclock : ∀ i, e.clock i = c0 + i)
    (hact : ∀ i s2, e.action i s2 = s2)
    (hdoc : s.find_one lk.lockname = some doc)
    (hlocker : doc.locker = some a)
    (hheld : ∀ i, i ≤ T + 1 → c0 + i < doc.expired_at) :
    ∀ fuel j, T + 1 ≤ j + fuel → j ≤ T + 1 →
      lk.acquireLoop e true (some T) c0 fuel j s
        = some (Except.error LockError.MongoLockCannotAcquire) := by
  intro fuel
  induction fuel with
  | zero =>
      intro j h1 h2
      have hj : j = T + 1 := by omega
      subst hj
      exact acquireLoop_timedOut_aborts e lk s doc a c0 T (T + 1) hclock hdoc hlocker
        (Nat.not_le.mpr (hheld (T + 1) le_rfl)) (by omega) 0
  | succ f ih =>
      intro j h1 h2
      by_cases hj : j = T + 1
      · subst hj
        exact acquireLoop_timedOut_aborts e lk s doc a c0 T (T + 1) hclock hdoc hlocker
          (Nat.not_le.mpr (hheld (T + 1) le_rfl)) (by omega) (f + 1)
      · have h1' : ¬ doc.expired_at ≤ e.clock j := by
          rw [hclock]; exact Nat.not_le.mpr (hheld j (by omega))
        have h2' : ¬ T < e.clock j - c0 := by rw [hclock]; omega
        rw [BaseMongoLock.acquireLoop.eq_def]
        simp only [BaseMongoLock.acquireAttempt, LockStore.try_claim, isFree, hdoc, hlocker]
        simp [h1', h2', hact]
        exact ih (j + 1) (by omega) (by omega)

/-- A plain (non-forced) acquire whose first claim attempt finds the record
free succeeds immediately, independent of the blocking mode, timeout and
fuel, upserting the document with the caller's token and a fresh lease. -/
theorem acquire_first_attempt_free (e : AcqEnv) (lk : BaseMongoLock)
    (block : Bool) (timeout : Option Nat) (fuel : Nat) (s : Store)
    (hfree : isFree (s.find_one lk.lockname) (e.clock 0) = true) :
    BaseMongoLock.acquire e lk block timeout false fuel s
      = some (Except.ok ({ lk with acquired := true },
          s.upsert lk.lockname ⟨some lk.lock_id, e.clock 0 + DEFAULT_PROLONG_TIMEOUT⟩)) := by
  rw [BaseMongoLock.acquire, if_neg (by simp), BaseMongoLock.acquireLoop.eq_def]
  simp [BaseMongoLock.acquireAttempt, LockStore.try_claim, hfree]

/-! ### Claim theorems -/

/-- C1, counterexample.  Concrete run refuting the claim as stated: instance
`⟨"lk", 2⟩` force-prolongs a record held by owner token 1 at time 200; the
call succeeds, but the resulting record's `locker` is still `some 1` — the
original holder's token — and not the calling instance's token 2, exactly as
the repository's own `test_force_prolong_lock` demands. -/
theorem force_prolong_by_nonowner_keeps_locker_cex :
    (match (BaseMongoLock.mk "lk" 2 false).prolong (singleStore "lk" ⟨some 1, 130⟩) 200 true with
     | Except.ok (_, s2) => (s2.find_one "lk").map LockDoc.locker
     | Except.error _ => none)
      = some (some 1)
    ∧ some (some 1) ≠ some (some (2 : Token)) := by
  exact ⟨rfl, by decide⟩

/-- C1, amended.  For every lock name whose record exists, a forced prolong
by any instance (owner or not) succeeds unconditionally and resets the
record's `expired_at` to now plus the default lease, but leaves the `locker`
field unchanged — ownership is not reassigned to the caller. -/
theorem force_prolong_extends_lease_keeps_locker (lk : BaseMongoLock)
    (s : Store) (now : Nat) (doc : LockDoc)
    (hdoc : s.find_one lk.lockname = some doc) :
    ∃ s2, lk.prolong s now true = Except.ok (lk, s2)
      ∧ s2.find_one lk.lockname
          = some ⟨doc.locker, now + DEFAULT_PROLONG_TIMEOUT⟩ := by
  refine ⟨LockStore.force_prolong s lk.lockname lk.lock_id
    (now + DEFAULT_PROLONG_TIMEOUT), ?_, ?_⟩
  · simp [BaseMongoLock.prolong]
  · simp [LockStore.force_prolong, hdoc]

/-- C1, witness for the amended theorem at a concrete input. -/
theorem force_prolong_extends_lease_keeps_locker_concrete :
    (singleStore "lk" ⟨some 1, 130⟩).find_one "lk" = some ⟨some 1, 130⟩
    ∧ ∃ s2, (BaseMongoLock.mk "lk" 2 false).prolong
          (singleStore "lk" ⟨some 1, 130⟩) 200 true = Except.ok (BaseMongoLock.mk "lk" 2 false, s2)
        ∧ s2.find_one "lk" = some ⟨some 1, 200 + DEFAULT_PROLONG_TIMEOUT⟩ :=
  ⟨rfl, force_prolong_extends_lease_keeps_locker (BaseMongoLock.mk "lk" 2 false)
    (singleStore "lk" ⟨some 1, 130⟩) 200 ⟨some 1, 130⟩ rfl⟩

/-- C2.  For every lock instance that currently holds the record, a prolong
(forced or not) sets `expired_at` to exactly the injected clock's reading
plus `DEFAULT_PROLONG_TIMEOUT` and leaves `locker` equal to the holder's
token; and a non-forced prolong by an instance whose token does not match
the record's `locker` raises `CannotProlong`. -/
theorem prolong_holder_sets_expiry_nonowner_raises (lk : BaseMongoLock)
    (s : Store) (now : Nat) (doc : LockDoc)
    (hdoc : s.find_one lk.lockname = some doc) :
    (doc.locker = some lk.lock_id →
      ∀ force : Bool, ∃ s2, lk.prolong s now force = Except.ok (lk, s2)
        ∧ s2.find_one lk.lockname
            = some ⟨some lk.lock_id, now + DEFAULT_PROLONG_TIMEOUT⟩)
    ∧ (doc.locker ≠ some lk.lock_id →
        lk.prolong s now false = Except.error LockError.MongoLockCannotProlong) := by
  constructor
  · intro hown force
    cases force with
    | true =>
        refine ⟨LockStore.force_prolong s lk.lockname lk.lock_id
          (now + DEFAULT_PROLONG_TIMEOUT), by simp [BaseMongoLock.prolong], ?_⟩
        simp [LockStore.force_prolong, hdoc, hown]
    | false =>
        refine ⟨s.upsert lk.lockname ⟨some lk.lock_id, now + DEFAULT_PROLONG_TIMEOUT⟩,
          ?_, by simp⟩
        simp [BaseMongoLock.prolong, LockStore.try_prolong, hdoc, hown]
  · intro hmis
    simp [BaseMongoLock.prolong, LockStore.try_prolong, hdoc, hmis]

/-- C2, witness at a concrete input: holder token 1, intruder token 2. -/
theorem prolong_holder_sets_expiry_nonowner_raises_concrete :
    ((singleStore "lk" ⟨some 1, 130⟩).find_one "lk" = some ⟨some 1, 130⟩
      ∧ ((some 1 = some (1 : Token) →
            ∀ force : Bool, ∃ s2, (BaseMongoLock.mk "lk" 1 true).prolong
                (singleStore "lk" ⟨some 1, 130⟩) 200 force = Except.ok (BaseMongoLock.mk "lk" 1 true, s2)
              ∧ s2.find_one "lk" = some ⟨some 1, 200 + DEFAULT_PROLONG_TIMEOUT⟩)
          ∧ (some 1 ≠ some (1 : Token) →
              (BaseMongoLock.mk "lk" 1 true).prolong (singleStore "lk" ⟨some 1, 130⟩) 200 false
                = Except.error LockError.MongoLockCannotProlong)))
    ∧ ((LockDoc.mk (some 1) 130).locker ≠ some (2 : Token)
        ∧ (BaseMongoLock.mk "lk" 2 false).prolong (singleStore "lk" ⟨some 1, 130⟩) 200 false
            = Except.error LockError.MongoLockCannotProlong) :=
  ⟨⟨rfl, prolong_holder_sets_expiry_nonowner_raises (BaseMongoLock.mk "lk" 1 true)
      (singleStore "lk" ⟨some 1, 130⟩) 200 ⟨some 1, 130⟩ rfl⟩,
   by decide,
   (prolong_holder_sets_expiry_nonowner_raises (BaseMongoLock.mk "lk" 2 false)
      (singleStore "lk" ⟨some 1, 130⟩) 200 ⟨some 1, 130⟩ rfl).2 (by decide)⟩

/-- C5.  For every lock name, a non-forced release by an instance whose token
does not match the record's `locker` raises `CannotRelease` and leaves the
store untouched; a forced release always succeeds regardless of the caller's
token, transitioning the caller to Unacquired and clearing the record to the
free state (`locker` null, `expired_at` 0). -/
theorem release_nonowner_raises_forced_clears (lk : BaseMongoLock)
    (s : Store) (doc : LockDoc)
    (hdoc : s.find_one lk.lockname = some doc)
    (hmis : doc.locker ≠ some lk.lock_id) :
    lk.release s false = Except.error LockError.MongoLockCannotRelease
    ∧ ∃ s2, lk.release s true = Except.ok ({ lk with acquired := false }, s2)
        ∧ s2.find_one lk.lockname = some ⟨none, 0⟩ := by
  refine ⟨?_, s.upsert lk.lockname ⟨none, 0⟩, ?_, by simp⟩
  · simp [BaseMongoLock.release, LockStore.try_release, hdoc, hmis]
  · simp [BaseMongoLock.release, LockStore.force_release, hdoc]

/-- C5, witness at a concrete input: record held by token 1, caller token 2. -/
theorem release_nonowner_raises_forced_clears_concrete :
    ((singleStore "lk" ⟨some 1, 130⟩).find_one "lk" = some ⟨some 1, 130⟩
        ∧ (LockDoc.mk (some 1) 130).locker ≠ some (2 : Token))
    ∧ ((BaseMongoLock.mk "lk" 2 false).release (singleStore "lk" ⟨some 1, 130⟩) false
          = Except.error LockError.MongoLockCannotRelease
      ∧ ∃ s2, (BaseMongoLock.mk "lk" 2 false).release (singleStore "lk" ⟨some 1, 130⟩) true
            = Except.ok (BaseMongoLock.mk "lk" 2 false, s2)
          ∧ s2.find_one "lk" = some ⟨none, 0⟩) :=
  ⟨⟨rfl, by decide⟩,
   release_nonowner_raises_forced_clears (BaseMongoLock.mk "lk" 2 false)
     (singleStore "lk" ⟨some 1, 130⟩) ⟨some 1, 130⟩ rfl (by decide)⟩

/-- C7.  For every lock name with no active lease (absent record, null
`locker`, or expired lease), a non-blocking acquire succeeds at once: the
instance's `acquired` property becomes true and the persisted document keyed
by the name has `locker` equal to the instance's token and `expired_at` at
least the injected clock's current reading.  The result is independent of the
loop fuel since no retry happens. -/
theorem acquire_free_nonblocking (e : AcqEnv) (lk : BaseMongoLock)
    (s : Store) (fuel : Nat)
    (hfree : isFree (s.find_one lk.lockname) (e.clock 0) = true) :
    ∃ s2, BaseMongoLock.acquire e lk false none false fuel s
        = some (Except.ok ({ lk with acquired := true }, s2))
      ∧ s2.find_one lk.lockname
          = some ⟨some lk.lock_id, e.clock 0 + DEFAULT_PROLONG_TIMEOUT⟩
      ∧ e.clock 0 ≤ e.clock 0 + DEFAULT_PROLONG_TIMEOUT := by
  exact ⟨s.upsert lk.lockname ⟨some lk.lock_id, e.clock 0 + DEFAULT_PROLONG_TIMEOUT⟩,
    acquire_first_attempt_free e lk false none fuel s hfree, by simp, Nat.le_add_right _ _⟩

/-- C7, witness: acquiring on an empty store at time 100. -/
theorem acquire_free_nonblocking_concrete :
    isFree (emptyStore.find_one "lk") 100 = true
    ∧ ∃ s2, BaseMongoLock.acquire
          { clock := fun _ => 100, action := fun _ s => s }
          (BaseMongoLock.new "lk" 1) false none false 0 emptyStore
        = some (Except.ok (BaseMongoLock.mk "lk" 1 true, s2))
      ∧ s2.find_one "lk" = some ⟨some 1, 100 + DEFAULT_PROLONG_TIMEOUT⟩
      ∧ 100 ≤ 100 + DEFAULT_PROLONG_TIMEOUT :=
  ⟨rfl, acquire_free_nonblocking { clock := fun _ => 100, action := fun _ s => s }
    (BaseMongoLock.new "lk" 1) emptyStore 0 rfl⟩

/-- C8.  For every lock name whose record is held by another instance and not
yet expired at the injected clock's reading, a non-blocking, non-forced
acquire raises `CannotAcquire` immediately: the result is the error for every
fuel (in particular fuel 0, under which no sleep may happen at all) and every
environment action, so no sleep or retry is involved. -/
theorem acquire_held_nonblocking_raises (e : AcqEnv) (lk : BaseMongoLock)
    (s : Store) (fuel : Nat) (doc : LockDoc) (a : Token)
    (hdoc : s.find_one lk.lockname = some doc)
    (hlocker : doc.locker = some a)
    (hne : a ≠ lk.lock_id)
    (hnotexp : e.clock 0 < doc.expired_at) :
    BaseMongoLock.acquire e lk false none false fuel s
      = some (Except.error LockError.MongoLockCannotAcquire) := by
  have hnle : ¬ doc.expired_at ≤ e.clock 0 := Nat.not_le.mpr hnotexp
  rw [BaseMongoLock.acquire, if_neg (by simp), BaseMongoLock.acquireLoop.eq_def]
  simp [BaseMongoLock.acquireAttempt, LockStore.try_claim, isFree, hdoc, hlocker, hnle]

/-- C8, witness: record held by token 1 until time 130, clock at 110,
caller token 2, fuel 0. -/
theorem acquire_held_nonblocking_raises_concrete :
    ((singleStore "lk" ⟨some 1, 130⟩).find_one "lk" = some ⟨some 1, 130⟩
      ∧ (LockDoc.mk (some 1) 130).locker = some 1
      ∧ (1 : Token) ≠ 2 ∧ (110 : Nat) < 130)
    ∧ BaseMongoLock.acquire { clock := fun _ => 110, action := fun _ s => s }
        (BaseMongoLock.new "lk" 2) false none false 0 (singleStore "lk" ⟨some 1, 130⟩)
      = some (Except.error LockError.MongoLockCannotAcquire) :=
  ⟨⟨rfl, rfl, by decide, by decide⟩,
   acquire_held_nonblocking_raises { clock := fun _ => 110, action := fun _ s => s }
     (BaseMongoLock.new "lk" 2) (singleStore "lk" ⟨some 1, 130⟩) 0
     ⟨some 1, 130⟩ 1 rfl rfl (by decide) (by decide)⟩

/-- C10.  For every lock name held by instance A, a forced release invoked by
a different, non-holding instance B returns B transitioned to Unacquired
(`acquired = false`), leaves A's in-memory `acquired` property true, clears
the record for that name to the free state, and changes no other document in
the store. -/
theorem force_release_by_other_frame (lkA lkB : BaseMongoLock) (s : Store)
    (doc : LockDoc)
    (hsame : lkB.lockname = lkA.lockname)
    (hA : lkA.acquired = true)
    (hdoc : s.find_one lkA.lockname = some doc)
    (hheld : doc.locker = some lkA.lock_id) :
    ∃ s2, lkB.release s true = Except.ok ({ lkB with acquired := false }, s2)
      ∧ ({ lkB with acquired := false } : BaseMongoLock).acquired = false
      ∧ lkA.acquired = true
      ∧ s2.find_one lkA.lockname = some ⟨none, 0⟩
      ∧ ∀ m, m ≠ lkA.lockname → s2.find_one m = s.find_one m := by
  refine ⟨s.upsert lkA.lockname ⟨none, 0⟩, ?_, rfl, hA, by simp, ?_⟩
  · simp [BaseMongoLock.release, LockStore.force_release, hsame, hdoc]
  · intro m hm
    exact Store.find_one_upsert_other s lkA.lockname m ⟨none, 0⟩ hm

/-- C10, witness: A = token 1 (acquired), B = token 2, single-document
store. -/
theorem force_release_by_other_frame_concrete :
    ((BaseMongoLock.mk "lk" 1 true).acquired = true
      ∧ (singleStore "lk" ⟨some 1, 130⟩).find_one "lk" = some ⟨some 1, 130⟩)
    ∧ ∃ s2, (BaseMongoLock.mk "lk" 2 false).release (singleStore "lk" ⟨some 1, 130⟩) true
          = Except.ok (BaseMongoLock.mk "lk" 2 false, s2)
        ∧ (BaseMongoLock.mk "lk" 2 false).acquired = false
        ∧ (BaseMongoLock.mk "lk" 1 true).acquired = true
        ∧ s2.find_one "lk" = some ⟨none, 0⟩
        ∧ ∀ m, m ≠ "lk" → s2.find_one m = (singleStore "lk" ⟨some 1, 130⟩).find_one m :=
  ⟨⟨rfl, rfl⟩,
   force_release_by_other_frame (BaseMongoLock.mk "lk" 1 true)
     (BaseMongoLock.mk "lk" 2 false) (singleStore "lk" ⟨some 1, 130⟩)
     ⟨some 1, 130⟩ rfl rfl rfl rfl⟩

/-- C3.  Against a record held by another owner for the whole window, a
blocking acquire with timeout `T` under an interference-free, unit-step
injected clock raises `CannotAcquire` once the elapsed time exceeds `T`:
the result is the error for every fuel of at least `T + 1` sleeps, so the
total wait is `T + 1` clock units — one poll interval past the deadline —
regardless of how many further iterations the fuel would allow; and with no
fuel at all the loop is still polling (`none`), showing that the abort only
happens after multiple try_claim polls separated by sleeps. -/
theorem acquire_held_with_timeout_raises (e : AcqEnv) (lk : BaseMongoLock)
    (s : Store) (doc : LockDoc) (a c0 T fuel : Nat)
    (hclock : ∀ i, e.clock i = c0 + i)
    (hact : ∀ i s2, e.action i s2 = s2)
    (hdoc : s.find_one lk.lockname = some doc)
    (hlocker : doc.locker = some a)
    (hheld : ∀ i, i ≤ T + 1 → c0 + i < doc.expired_at)
    (hfuel : T + 1 ≤ fuel) :
    BaseMongoLock.acquire e lk true (some T) false fuel s
      = some (Except.error LockError.MongoLockCannotAcquire)
    ∧ BaseMongoLock.acquire e lk true (some T) false 0 s = none := by
  constructor
  · rw [BaseMongoLock.acquire, if_neg (by simp)]
    have h0 : e.clock 0 = c0 := by rw [hclock]; omega
    rw [h0]
    exact acquireLoop_held_times_out e lk s doc a c0 T hclock hact hdoc hlocker hheld
      fuel 0 (by omega) (by omega)
  · rw [BaseMongoLock.acquire, if_neg (by simp), BaseMongoLock.acquireLoop.eq_def]
    have h1 : ¬ doc.expired_at ≤ e.clock 0 := by
      rw [hclock]; exact Nat.not_le.mpr (hheld 0 (by omega))
    have h2 : ¬ T < e.clock 0 - e.clock 0 := by omega
    simp [BaseMongoLock.acquireAttempt, LockStore.try_claim, isFree, hdoc, hlocker, h1, h2]

/-- C3, witness: clock starting at 110 advancing one unit per sleep, record
held by token 1 until time 1000, caller token 2, timeout 5, fuel 6. -/
theorem acquire_held_with_timeout_raises_concrete :
    ((∀ i, (steadyClockEnv 110).clock i = 110 + i)
      ∧ (∀ i s2, (steadyClockEnv 110).action i s2 = s2)
      ∧ (singleStore "lk" ⟨some 1, 1000⟩).find_one "lk" = some ⟨some 1, 1000⟩
      ∧ (LockDoc.mk (some 1) 1000).locker = some 1
      ∧ (∀ i, i ≤ 5 + 1 → 110 + i < (LockDoc.mk (some 1) 1000).expired_at)
      ∧ 5 + 1 ≤ 6)
    ∧ BaseMongoLock.acquire (steadyClockEnv 110) (BaseMongoLock.new "lk" 2) true
        (some 5) false 6 (singleStore "lk" ⟨some 1, 1000⟩)
        = some (Except.error LockError.MongoLockCannotAcquire)
    ∧ BaseMongoLock.acquire (steadyClockEnv 110) (BaseMongoLock.new "lk" 2) true
        (some 5) false 0 (singleStore "lk" ⟨some 1, 1000⟩) = none :=
  ⟨⟨fun _ => rfl, fun _ _ => rfl, rfl, rfl, by intro i h; simp; omega, by omega⟩,
   acquire_held_with_timeout_raises (steadyClockEnv 110) (BaseMongoLock.new "lk" 2)
     (singleStore "lk" ⟨some 1, 1000⟩) ⟨some 1, 1000⟩ 1 110 5 6
     (fun _ => rfl) (fun _ _ => rfl) rfl rfl (by intro i h; simp; omega) (by omega)⟩

/-- C4.  If instance A holds the record (expiry `t0 + lease`) and releases it
during the first sleep of instance B's blocking acquire, B's acquire succeeds
at the very next poll: B ends acquired, the record's `locker` is B's token,
and its `expired_at` — freshly computed from the clock reading of that later
poll — is strictly greater than the expiry A had set, because the record's
freeness was re-read from the store on the new round trip rather than cached
by the waiter. -/
theorem acquire_succeeds_after_release_mid_wait (e : AcqEnv)
    (lkB : BaseMongoLock) (s : Store) (a t0 f : Nat)
    (hdoc : s.find_one lkB.lockname = some ⟨some a, t0 + DEFAULT_PROLONG_TIMEOUT⟩)
    (hheld0 : e.clock 0 < t0 + DEFAULT_PROLONG_TIMEOUT)
    (hrel : e.action 0 s = (LockStore.try_release s lkB.lockname a).2)
    (ht1 : t0 < e.clock 1) :
    ∃ s2, BaseMongoLock.acquire e lkB true none false (f + 1) s
        = some (Except.ok ({ lkB with acquired := true }, s2))
      ∧ ({ lkB with acquired := true } : BaseMongoLock).acquired = true
      ∧ s2.find_one lkB.lockname
          = some ⟨some lkB.lock_id, e.clock 1 + DEFAULT_PROLONG_TIMEOUT⟩
      ∧ t0 + DEFAULT_PROLONG_TIMEOUT < e.clock 1 + DEFAULT_PROLONG_TIMEOUT := by
  refine ⟨(s.upsert lkB.lockname ⟨none, 0⟩).upsert lkB.lockname
      ⟨some lkB.lock_id, e.clock 1 + DEFAULT_PROLONG_TIMEOUT⟩, ?_, rfl, by simp, by omega⟩
  rw [BaseMongoLock.acquire, if_neg (by simp), BaseMongoLock.acquireLoop.eq_def]
  have h1 : ¬ (t0 + DEFAULT_PROLONG_TIMEOUT : Nat) ≤ e.clock 0 := by omega
  have hrel2 : (LockStore.try_release s lkB.lockname a).2
      = s.upsert lkB.lockname ⟨none, 0⟩ := by
    simp [LockStore.try_release, hdoc]
  simp only [BaseMongoLock.acquireAttempt, LockStore.try_claim, isFree, hdoc]
  simp [h1, hrel, hrel2]
  rw [BaseMongoLock.acquireLoop.eq_def]
  simp [BaseMongoLock.acquireAttempt, LockStore.try_claim, isFree]

/-- C4, witness: A = token 1 acquired at t0 = 100 (expiry 100 + lease), B =
token 2, clock reading 110 at the first poll and 111 at the second, A's
release installed as the environment action of the first sleep. -/
theorem acquire_succeeds_after_release_mid_wait_concrete :
    ((singleStore "lk" ⟨some 1, 100 + DEFAULT_PROLONG_TIMEOUT⟩).find_one "lk"
        = some ⟨some 1, 100 + DEFAULT_PROLONG_TIMEOUT⟩
      ∧ releasingEnv.clock 0 < 100 + DEFAULT_PROLONG_TIMEOUT
      ∧ releasingEnv.action 0 (singleStore "lk" ⟨some 1, 100 + DEFAULT_PROLONG_TIMEOUT⟩)
          = (LockStore.try_release (singleStore "lk" ⟨some 1, 100 + DEFAULT_PROLONG_TIMEOUT⟩) "lk" 1).2
      ∧ 100 < releasingEnv.clock 1)
    ∧ ∃ s2, BaseMongoLock.acquire releasingEnv (BaseMongoLock.new "lk" 2)
          true none false 1 (singleStore "lk" ⟨some 1, 100 + DEFAULT_PROLONG_TIMEOUT⟩)
        = some (Except.ok (BaseMongoLock.mk "lk" 2 true, s2))
      ∧ (BaseMongoLock.mk "lk" 2 true).acquired = true
      ∧ s2.find_one "lk" = some ⟨some 2, releasingEnv.clock 1 + DEFAULT_PROLONG_TIMEOUT⟩
      ∧ 100 + DEFAULT_PROLONG_TIMEOUT < releasingEnv.clock 1 + DEFAULT_PROLONG_TIMEOUT :=
  ⟨⟨rfl, by decide, rfl, by decide⟩,
   acquire_succeeds_after_release_mid_wait releasingEnv
     (BaseMongoLock.new "lk" 2) (singleStore "lk" ⟨some 1, 100 + DEFAULT_PROLONG_TIMEOUT⟩)
     1 100 0 rfl (by decide) rfl (by decide)⟩

/-- C6.  An auto-renewing lock acquired on a free record starts its renewal
task; each renewal tick resets `expired_at` to the tick's clock reading plus
the lease while `locker` stays the holder's token, so samples taken at
strictly increasing times show strictly increasing `expired_at`; releasing
stops the task and clears the record to `locker = null, expired_at = 0`, and
a stopped task performs no further store write whatsoever. -/
theorem auto_prolong_renews_then_stops (n : Name) (tok : Token) (s0 : Store)
    (t0 t1 t2 : Nat)
    (hfree : isFree (s0.find_one n) t0 = true)
    (h12 : t1 < t2) :
    ∃ lk1 s1,
      (AutoProlongMongoLock.mk (BaseMongoLock.new n tok) false).acquire s0 t0
        = some (lk1, s1)
      ∧ lk1.prolonger_alive = true
      ∧ lk1.base.lock_id = tok
      ∧ (lk1.renewStep s1 t1).find_one n = some ⟨some tok, t1 + DEFAULT_PROLONG_TIMEOUT⟩
      ∧ (lk1.renewStep (lk1.renewStep s1 t1) t2).find_one n
          = some ⟨some tok, t2 + DEFAULT_PROLONG_TIMEOUT⟩
      ∧ t1 + DEFAULT_PROLONG_TIMEOUT < t2 + DEFAULT_PROLONG_TIMEOUT
      ∧ ∃ lk2 s4,
          lk1.release (lk1.renewStep (lk1.renewStep s1 t1) t2) false
            = Except.ok (lk2, s4)
          ∧ lk2.prolonger_alive = false
          ∧ s4.find_one n = some ⟨none, 0⟩
          ∧ ∀ t s, lk2.renewStep s t = s := by
  refine ⟨⟨⟨n, tok, true⟩, true⟩,
    s0.upsert n ⟨some tok, t0 + DEFAULT_PROLONG_TIMEOUT⟩, ?_, rfl, rfl, ?_, ?_, by omega,
    ?_⟩
  · simp [AutoProlongMongoLock.acquire, BaseMongoLock.acquireAttempt,
      LockStore.try_claim, BaseMongoLock.new, hfree]
  · simp [AutoProlongMongoLock.renewStep, BaseMongoLock.prolong,
      LockStore.force_prolong]
  · simp [AutoProlongMongoLock.renewStep, BaseMongoLock.prolong,
      LockStore.force_prolong]
  · refine ⟨⟨⟨n, tok, false⟩, false⟩,
      ((s0.upsert n ⟨some tok, t0 + DEFAULT_PROLONG_TIMEOUT⟩).upsert n
        ⟨some tok, t1 + DEFAULT_PROLONG_TIMEOUT⟩).upsert n ⟨some tok, t2 + DEFAULT_PROLONG_TIMEOUT⟩
        |>.upsert n ⟨none, 0⟩, ?_, rfl, by simp, ?_⟩
    · simp [AutoProlongMongoLock.release, AutoProlongMongoLock.renewStep,
        BaseMongoLock.prolong, LockStore.force_prolong, BaseMongoLock.release,
        LockStore.try_release]
    · intro t s
      simp [AutoProlongMongoLock.renewStep]

/-- C6, witness: token 1 acquires on an empty store at time 100, renewal
ticks at times 101 and 102, then release. -/
theorem auto_prolong_renews_then_stops_concrete :
    (isFree (emptyStore.find_one "lk") 100 = true ∧ (101 : Nat) < 102)
    ∧ ∃ lk1 s1,
        (AutoProlongMongoLock.mk (BaseMongoLock.new "lk" 1) false).acquire emptyStore 100
          = some (lk1, s1)
        ∧ lk1.prolonger_alive = true
        ∧ lk1.base.lock_id = 1
        ∧ (lk1.renewStep s1 101).find_one "lk" = some ⟨some 1, 101 + DEFAULT_PROLONG_TIMEOUT⟩
        ∧ (lk1.renewStep (lk1.renewStep s1 101) 102).find_one "lk"
            = some ⟨some 1, 102 + DEFAULT_PROLONG_TIMEOUT⟩
        ∧ 101 + DEFAULT_PROLONG_TIMEOUT < 102 + DEFAULT_PROLONG_TIMEOUT
        ∧ ∃ lk2 s4,
            lk1.release (lk1.renewStep (lk1.renewStep s1 101) 102) false
              = Except.ok (lk2, s4)
            ∧ lk2.prolonger_alive = false
            ∧ s4.find_one "lk" = some ⟨none, 0⟩
            ∧ ∀ t s, lk2.renewStep s t = s :=
  ⟨⟨rfl, by decide⟩,
   auto_prolong_renews_then_stops "lk" 1 emptyStore 100 101 102 rfl (by decide)⟩

/-- C9.  Whenever the scoped helper's entry acquire claims the (free) record,
the protected section runs and — on every exit path, both a normal result
and an error of the body, which is returned unchanged — the helper releases,
after which the document for the name still exists in the store and is back
in the free state (`locker = null`, `expired_at = 0`). -/
theorem with_base_lock_body_runs_record_freed (W E : Type) (e : AcqEnv)
    (n : Name) (tok : Token) (fuel : Nat) (s : Store)
    (body : W → Except E W) (w : W)
    (hfree : isFree (s.find_one n) (e.clock 0) = true) :
    ∃ s3, with_base_lock e n tok fuel s body w = some (Except.ok (body w, s3))
      ∧ s3.find_one n = some ⟨none, 0⟩ := by
  refine ⟨(s.upsert n ⟨some tok, e.clock 0 + DEFAULT_PROLONG_TIMEOUT⟩).upsert n ⟨none, 0⟩,
    ?_, by simp⟩
  have hacq := acquire_first_attempt_free e (BaseMongoLock.new n tok) true none fuel s hfree
  rw [with_base_lock, hacq]
  simp [BaseMongoLock.release, LockStore.try_release, BaseMongoLock.new]

/-- C9, witness: both exit paths at concrete inputs — a body that returns
normally and a body that raises — each leaving the document present and
free. -/
theorem with_base_lock_body_runs_record_freed_concrete :
    (isFree (emptyStore.find_one "lk") ((steadyClockEnv 100).clock 0) = true
      ∧ ∃ s3, with_base_lock (steadyClockEnv 100) "lk" 1 0 emptyStore
            (fun x : Nat => (Except.ok (x + 1) : Except Unit Nat)) 0
          = some (Except.ok (Except.ok 1, s3))
        ∧ s3.find_one "lk" = some ⟨none, 0⟩)
    ∧ ∃ s3, with_base_lock (steadyClockEnv 100) "lk" 1 0 emptyStore
          (fun _ : Nat => Except.error ()) 0
        = some (Except.ok (Except.error (), s3))
      ∧ s3.find_one "lk" = some ⟨none, 0⟩ :=
  ⟨⟨rfl, with_base_lock_body_runs_record_freed Nat Unit (steadyClockEnv 100) "lk" 1 0
      emptyStore (fun x => Except.ok (x + 1)) 0 rfl⟩,
   with_base_lock_body_runs_record_freed Nat Unit (steadyClockEnv 100) "lk" 1 0
     emptyStore (fun _ => Except.error ()) 0 rfl⟩

end CephLcm
